import Mathlib

/-!
Verification development for the HFT-Orderbook-Engine repository.

This file gives a shallow embedding, in Lean 4, of the core matching engine:
the order record (`Order.h`), the risk gate (`RiskManager.h`), the object pool
(`ObjectPool.h`), the SPSC ring buffer (`LockFreeQueue.h`), and the price-level
book with its match loop and request-processing loop (`Orderbook.cpp` /
`Orderbook.h`).  C++ machine integers (`Price`, `Quantity`, `OrderId` are
unsigned integer aliases from `Usings.h`) are modelled as `Nat`; every
arithmetic operation performed by the traced code paths stays far away from
wrap-around, and where the C++ could wrap (an unsigned decrement of a zero
count) the spot is called out in a comment.  `std::shared_ptr<Order>` aliasing
is modelled by keeping the single authoritative copy of each resting order
inside its price level's FIFO; the id index stores the fields of an order that
are immutable while it rests on the book (discipline, side, price).

Theorems at the end of the file settle the frozen claims about this code.
-/

namespace HFT

/-- `Side` from `Side.h` (header referenced by the sources). -/
inductive Side where
  | Buy
  | Sell
deriving DecidableEq, Repr

/-- `OrderType` from `OrderType.h` (header referenced by the sources): the
order disciplines dispatched on in `Orderbook.cpp`. -/
inductive OrderType where
  | GoodTillCancel
  | FillAndKill
  | FillOrKill
  | Market
  | GoodForDay
deriving DecidableEq, Repr

/-- `Price`, `Quantity`, `OrderId` are unsigned integer aliases; modelled as
`Nat`. -/
abbrev Price := Nat

abbrev Quantity := Nat

abbrev OrderId := Nat

/-- The mutable order record, class `Order` in `Order.h`. -/
structure Order where
  orderType : OrderType
  orderId : Nat
  side : Side
  price : Nat
  initialQuantity : Nat
  remainingQuantity : Nat
deriving DecidableEq, Repr

namespace Order

/-- `Order::IsFilled`: remaining quantity is zero. -/
def IsFilled (o : Order) : Bool :=
  o.remainingQuantity == 0

/-- `Order::Fill(quantity)`: subtracts from `remainingQuantity_`.  The source
throws a `std::logic_error` when `quantity > remaining`; every call site in
`Orderbook.cpp` passes `min(bid remaining, ask remaining)`, so the guard never
fires and the embedding is the plain subtraction. -/
def Fill (o : Order) (quantity : Nat) : Order :=
  { o with remainingQuantity := o.remainingQuantity - quantity }

/-- `Order::ToGoodTillCancel(price)`: rebinds the price of a `Market` order and
rewrites its discipline (only ever called on `Market` orders). -/
def ToGoodTillCancel (o : Order) (price : Nat) : Order :=
  { o with price := price, orderType := OrderType.GoodTillCancel }

/-- `Order::Reset(orderType, orderId, side, price, quantity)`: overwrites every
field of a recycled slot. -/
def Reset (_o : Order) (orderType : OrderType) (orderId : Nat) (side : Side)
    (price : Nat) (quantity : Nat) : Order :=
  { orderType := orderType, orderId := orderId, side := side, price := price,
    initialQuantity := quantity, remainingQuantity := quantity }

end Order

/-- A default-constructed `Order` slot (`Order() = default`, i.e. `new T()` in
`ObjectPool::Acquire`).  Its field contents are indeterminate in the C++ and
are always overwritten by `Reset` before the engine reads them; the concrete
values chosen here are arbitrary stand-ins. -/
def defaultOrder : Order :=
  { orderType := OrderType.GoodTillCancel, orderId := 0, side := Side.Buy,
    price := 0, initialQuantity := 0, remainingQuantity := 0 }

/-- `OrderModify` (header `OrderModify.h` referenced by the sources): the
payload of a Modify request, `{id, side, price, qty}` with plain getters. -/
structure OrderModify where
  orderId : Nat
  side : Side
  price : Nat
  quantity : Nat
deriving DecidableEq, Repr

/-- `TradeInfo` from `Trade.h`: `{orderId, price, quantity}` for one side of a
trade. -/
structure TradeInfo where
  orderId : Nat
  price : Nat
  quantity : Nat
deriving DecidableEq, Repr

/-- `Trade` from `Trade.h`: the bid-side record paired with the ask-side
record. -/
structure Trade where
  bidTrade : TradeInfo
  askTrade : TradeInfo
deriving DecidableEq, Repr

/-! ## Risk gate (`RiskManager.h`) -/

namespace RiskManager

/-- `RiskManager::Config` with the in-class default member values. -/
structure Config where
  maxOrderQuantity : Nat := 10000
  maxPrice : Nat := 1000000
  minPrice : Nat := 1
deriving DecidableEq, Repr

/-- `RiskManager::Result`. -/
inductive Result where
  | Allowed
  | RejectedMaxQty
  | RejectedPriceRange
deriving DecidableEq, Repr

/-- `RiskManager::CheckOrder`, lines 27-41 of `RiskManager.h`: reject when the
initial quantity exceeds the configured maximum; otherwise, for non-`Market`
orders only, reject when the price lies outside `[minPrice, maxPrice]`;
otherwise allow. -/
def CheckOrder (config : Config) (order : Order) : Result :=
  if order.initialQuantity > config.maxOrderQuantity then
    Result.RejectedMaxQty
  else if order.orderType ≠ OrderType.Market ∧
      (order.price > config.maxPrice ∨ order.price < config.minPrice) then
    Result.RejectedPriceRange
  else
    Result.Allowed

end RiskManager

/-! ## Object pool (`ObjectPool.h`)

`ObjectPool<T>` keeps a vector `pool_` of free slots; `Acquire` takes
`pool_.back()` and pops it, or heap-allocates a fresh default-constructed slot
when the vector is empty; `Release` pushes the slot back.  The free vector is
modelled as a list whose head is `pool_.back()` (most recently released
first).  The mutex only serializes access and has no functional content. -/

namespace ObjectPool

/-- `ObjectPool::Acquire`, lines 28-42 of `ObjectPool.h`: pop the back of the
free list, or fall back to a fresh allocation (`new T()`) when empty. -/
def Acquire (pool : List Order) : Order × List Order :=
  match pool with
  | [] => (defaultOrder, [])
  | o :: rest => (o, rest)

/-- `ObjectPool::Release`, lines 44-48: push the slot back onto the free
list. -/
def Release (pool : List Order) (obj : Order) : List Order :=
  obj :: pool

/-- Modelled from the spec: the pool state §3/§4.B requires, the free list
*plus* an `exhaustions` counter ("on an empty pool it either allocates a new
slot (degraded) and increments an `exhaustions` counter, or fails with
`PoolExhausted`").  No such counter exists anywhere in the repository's
sources; the state extension is introduced so that the claim about the counter
can be stated. -/
structure StateWithMetric where
  free : List Order
  exhaustions : Nat
deriving DecidableEq, Repr

/-- The source's `Acquire` lifted to the spec's metric-carrying pool state.
`ObjectPool.h` maintains no exhaustion counter or metric (and none exists
elsewhere in the repository), so the code's action on the `exhaustions`
component is the identity. -/
def AcquireLifted (s : StateWithMetric) : Order × StateWithMetric :=
  let (o, free') := Acquire s.free
  (o, { s with free := free' })

/-- Modelled from the spec: degraded-mode `acquire` as §4.B words it — on a
non-empty pool return a slot from the free list; on an empty pool allocate a
new slot *and increment the `exhaustions` counter*. -/
def acquireSpecDegraded (s : StateWithMetric) : Order × StateWithMetric :=
  match s.free with
  | [] => (defaultOrder, { s with exhaustions := s.exhaustions + 1 })
  | o :: rest => (o, { s with free := rest })

end ObjectPool

/-! ## SPSC ring buffer (`LockFreeQueue.h`)

`LockFreeQueue<T>` holds a vector `buffer_` of `size` default-constructed
elements and two indices `head_`, `tail_`, both starting at 0 and always
reduced modulo `capacity_`.  The atomics only order memory between the two
threads; functionally the structure is the plain ring below.  A slot the
producer has never written holds a default-constructed `T`; the buffer is
modelled as a partial function so such slots read back as `none`. -/

structure LockFreeQueue (T : Type) where
  capacity : Nat
  buffer : Nat → Option T
  head : Nat
  tail : Nat

namespace LockFreeQueue

/-- The freshly constructed queue `LockFreeQueue(size)`: `head_ = tail_ = 0`,
no slot yet written. -/
def mk0 (T : Type) (size : Nat) : LockFreeQueue T :=
  { capacity := size, buffer := fun _ => none, head := 0, tail := 0 }

/-- `LockFreeQueue::Push`, lines 13-26 of `LockFreeQueue.h`: fail when
advancing `tail_` would collide with `head_`, else write at `tail_` and
advance it. -/
def Push (q : LockFreeQueue T) (item : T) : Bool × LockFreeQueue T :=
  let nextTail := (q.tail + 1) % q.capacity
  if nextTail == q.head then
    (false, q)
  else
    (true, { q with
      buffer := fun i => if i == q.tail then some item else q.buffer i,
      tail := nextTail })

/-- `LockFreeQueue::Pop`, lines 28-40: fail when `head_ == tail_`, else read
the slot at `head_` and advance it.  The first component is the C++ `bool`
return value, the second the value assigned through the out-parameter. -/
def Pop (q : LockFreeQueue T) : Bool × Option T × LockFreeQueue T :=
  if q.head == q.tail then
    (false, none, q)
  else
    (true, q.buffer q.head, { q with head := (q.head + 1) % q.capacity })

/-- `LockFreeQueue::IsEmpty`, lines 42-45. -/
def IsEmpty (q : LockFreeQueue T) : Bool :=
  q.head == q.tail

/-- `LockFreeQueue::Size`, lines 47-53. -/
def Size (q : LockFreeQueue T) : Nat :=
  if q.tail ≥ q.head then q.tail - q.head
  else q.capacity - (q.head - q.tail)

/-- `n` consecutive `Push` calls of the same element, returning the final
queue state. -/
def pushChain (x : T) : Nat → LockFreeQueue T → LockFreeQueue T
  | 0, q => q
  | n + 1, q => pushChain x n (Push q x).2

/-- Whether `n` consecutive `Push` calls all report success. -/
def pushChainOk (x : T) : Nat → LockFreeQueue T → Bool
  | 0, _ => true
  | n + 1, q => (Push q x).1 && pushChainOk x n (Push q x).2

end LockFreeQueue

/-! ## The price-level book (`Orderbook.h` / `Orderbook.cpp`)

The `Orderbook` class keeps

* `bids_ : std::map<Price, OrderPointers, std::greater<Price>>` — modelled as
  a list of `(price, FIFO)` pairs sorted in strictly descending price order;
* `asks_ : std::map<Price, OrderPointers, std::less<Price>>` — the same,
  ascending;
* `data_ : std::unordered_map<Price, LevelData>` — modelled as an association
  list (the hash map's iteration order is unspecified; it is only iterated by
  `CanFullyFill`, which is dead code because `CanMatch` is stubbed to `false`);
* `orders_ : std::unordered_map<OrderId, OrderEntry>` — the id index.  In the
  source an entry holds a `shared_ptr` to the order and a list iterator into
  its level.  The authoritative copy of each resting order lives in its
  level's FIFO here, so the index entry keeps the fields that are immutable
  while the order rests (discipline, side, price); the iterator is replayed by
  locating the unique FIFO node carrying the order's id;
* `orderPool_ : ObjectPool<Order>` — the free list from above. -/

/-- `Orderbook::LevelData` (fields `quantity_`, `count_`) from `Orderbook.h`. -/
structure LevelData where
  quantity : Nat
  count : Nat
deriving DecidableEq, Repr

/-- `Orderbook::LevelData::Action`. -/
inductive LevelAction where
  | Add
  | Remove
  | Match
deriving DecidableEq, Repr

/-- The immutable part of an `Orderbook::OrderEntry` (see the module comment
above). -/
structure OrderEntry where
  orderId : Nat
  orderType : OrderType
  side : Side
  price : Nat
deriving DecidableEq, Repr

/-- The functional state of the `Orderbook` class: the two price-ordered maps,
the per-price aggregates, the id index, and the order pool's free list. -/
structure Orderbook where
  bids : List (Nat × List Order)
  asks : List (Nat × List Order)
  data : List (Nat × LevelData)
  orders : List OrderEntry
  pool : List Order
deriving DecidableEq, Repr

/-- Lookup in the `data_` association list. -/
def dataFind (data : List (Nat × LevelData)) (price : Nat) : Option LevelData :=
  match data.find? (fun kv => kv.1 == price) with
  | some kv => some kv.2
  | none => none

/-- Write-through into the `data_` association list (insert or overwrite). -/
def dataSet : List (Nat × LevelData) → Nat → LevelData → List (Nat × LevelData)
  | [], price, d => [(price, d)]
  | kv :: rest, price, d =>
    if kv.1 == price then (price, d) :: rest else kv :: dataSet rest price d

/-- `data_.erase(price)`. -/
def dataErase : List (Nat × LevelData) → Nat → List (Nat × LevelData)
  | [], _ => []
  | kv :: rest, price => if kv.1 == price then rest else kv :: dataErase rest price

/-- Lookup of a price level's FIFO in one of the two ordered maps
(`bids_.at(price)` / `asks_.at(price)`). -/
def bookFind : List (Nat × List Order) → Nat → Option (List Order)
  | [], _ => none
  | (p, level) :: rest, price =>
    if p == price then some level else bookFind rest price

/-- Replace the FIFO stored at an existing price key (writing back through a
reference obtained from `at`). -/
def bookSet : List (Nat × List Order) → Nat → List Order → List (Nat × List Order)
  | [], _, _ => []
  | (p, level) :: rest, price, level' =>
    if p == price then (price, level') :: rest else (p, level) :: bookSet rest price level'

/-- `bids_[price].push_back(order)` / `asks_[price].push_back(order)`: the
ordered map's `operator[]` inserts an empty FIFO at a fresh key (keeping the
keys sorted by the map's comparator `lt`), then the order is appended at the
tail. -/
def mapInsertOrder (lt : Nat → Nat → Bool) :
    List (Nat × List Order) → Nat → Order → List (Nat × List Order)
  | [], price, order => [(price, [order])]
  | (p, level) :: rest, price, order =>
    if p == price then (p, level ++ [order]) :: rest
    else if lt price p then (price, [order]) :: (p, level) :: rest
    else (p, level) :: mapInsertOrder lt rest price order

/-- `orders.erase(iterator)` replayed from the id: splice the unique node
carrying `orderId` out of a level FIFO, returning the removed order. -/
def removeFirstById : List Order → Nat → List Order × Option Order
  | [], _ => ([], none)
  | o :: rest, orderId =>
    if o.orderId == orderId then (rest, some o)
    else
      let r := removeFirstById rest orderId
      (o :: r.1, r.2)

/-- `orders_.contains(orderId)`. -/
def ordersContains (orders : List OrderEntry) (orderId : Nat) : Bool :=
  orders.any (fun e => e.orderId == orderId)

/-- `orders_.at(orderId)` lookup. -/
def ordersFind (orders : List OrderEntry) (orderId : Nat) : Option OrderEntry :=
  orders.find? (fun e => e.orderId == orderId)

/-- `orders_.erase(orderId)`. -/
def ordersErase (orders : List OrderEntry) (orderId : Nat) : List OrderEntry :=
  orders.filter (fun e => e.orderId != orderId)

/-- `Orderbook::UpdateLevelData`, lines 170-199 of `Orderbook.cpp`.
`data_[price]` default-constructs a zero `LevelData` when the key is absent;
`count_` is decremented on `Remove`, incremented on `Add`; `quantity_` is
decreased on `Remove`/`Match` and increased on `Add`; the entry is erased when
the count reaches zero.  `count_` is an unsigned integer in the source, so the
decrement would wrap at zero; in every execution traced in this file the count
is at least 1 whenever a `Remove` is applied, so the truncated `Nat`
subtraction agrees with the source. -/
def UpdateLevelData (data : List (Nat × LevelData)) (price : Nat)
    (quantity : Nat) (action : LevelAction) : List (Nat × LevelData) :=
  let d := (dataFind data price).getD { quantity := 0, count := 0 }
  let count' :=
    match action with
    | LevelAction.Remove => d.count - 1
    | LevelAction.Add => d.count + 1
    | LevelAction.Match => d.count
  let quantity' :=
    match action with
    | LevelAction.Remove => d.quantity - quantity
    | LevelAction.Match => d.quantity - quantity
    | LevelAction.Add => d.quantity + quantity
  if count' == 0 then dataErase data price
  else dataSet data price { quantity := quantity', count := count' }

/-- `Orderbook::OnOrderCancelled`, lines 153-158: roll the level aggregate back
by the order's remaining quantity and release the slot to the pool. -/
def OnOrderCancelled (b : Orderbook) (order : Order) : Orderbook :=
  { b with
    data := UpdateLevelData b.data order.price order.remainingQuantity LevelAction.Remove,
    pool := ObjectPool.Release b.pool order }

/-- `Orderbook::OnOrderAdded`, lines 160-163. -/
def OnOrderAdded (b : Orderbook) (order : Order) : Orderbook :=
  { b with
    data := UpdateLevelData b.data order.price order.initialQuantity LevelAction.Add }

/-- `Orderbook::OnOrderMatched`, lines 165-168 (acting on the `data_`
component). -/
def OnOrderMatched (data : List (Nat × LevelData)) (price : Nat)
    (quantity : Nat) (isFullyFilled : Bool) : List (Nat × LevelData) :=
  UpdateLevelData data price quantity
    (if isFullyFilled then LevelAction.Remove else LevelAction.Match)

/-- `Orderbook::CanMatch`, lines 239-256 of `Orderbook.cpp`.  The body reads
`(void)price;` and returns `false` on both sides; the intended best-ask /
best-bid comparisons (`price >= bestAsk`, `price <= bestBid`) are present only
as commented-out code ("Use O(1) Matcher!"), as are the `bidMap_` / `askMap_`
members they would consult (`Orderbook.h`). -/
def CanMatch (_b : Orderbook) (side : Side) (_price : Nat) : Bool :=
  match side with
  | Side.Buy => false
  | Side.Sell => false

/-- The level walk of `Orderbook::CanFullyFill`, lines 219-234: skip levels on
the wrong side of the top-of-book threshold or beyond the limit price,
otherwise consume the level's aggregate quantity until it covers the request.
The source iterates the unordered `data_` map; the list order here stands in
for that unspecified order (the walk is dead code, see `CanFullyFill`). -/
def cffLoop (side : Side) (threshold : Nat) (price : Nat) :
    Nat → List (Nat × LevelData) → Bool
  | _, [] => false
  | quantity, (levelPrice, levelData) :: rest =>
    if (side == Side.Buy && threshold > levelPrice) ||
        (side == Side.Sell && threshold < levelPrice) then
      cffLoop side threshold price quantity rest
    else if (side == Side.Buy && levelPrice > price) ||
        (side == Side.Sell && levelPrice < price) then
      cffLoop side threshold price quantity rest
    else if quantity ≤ levelData.quantity then true
    else cffLoop side threshold price (quantity - levelData.quantity) rest

/-- `Orderbook::CanFullyFill`, lines 201-237.  Returns `false` immediately when
`CanMatch` fails — and `CanMatch` is stubbed to `false`, so the walk below is
unreachable.  The threshold is the top-of-book price on the opposite side
(`*asks_.begin()` / `*bids_.begin()`; dereferencing the begin iterator of an
empty map is undefined behaviour in C++ and is modelled as returning
`false`). -/
def CanFullyFill (b : Orderbook) (side : Side) (price : Nat)
    (quantity : Nat) : Bool :=
  if !CanMatch b side price then false
  else
    let threshold : Option Nat :=
      match side with
      | Side.Buy => b.asks.head?.map Prod.fst
      | Side.Sell => b.bids.head?.map Prod.fst
    match threshold with
    | none => false
    | some t => cffLoop side t price quantity b.data

/-- `Orderbook::CancelOrderInternal`, lines 117-151 of `Orderbook.cpp`, plus
the `OnOrderCancelled` call: look the id up, splice the order out of its
level's FIFO, and roll back aggregates / release the slot.  The
`asks_.erase(price)` / `bids_.erase(price)` cleanup of an emptied level is
commented out in the source, so the (possibly empty) FIFO stays in the map.
`asks_.at(price)` would throw for a missing level and the stored iterator is
always valid; the `none` fallbacks below cover those source-unreachable
shapes as no-ops. -/
def CancelOrderInternal (b : Orderbook) (orderId : Nat) : Orderbook :=
  match ordersFind b.orders orderId with
  | none => b
  | some entry =>
    let orders' := ordersErase b.orders orderId
    match entry.side with
    | Side.Sell =>
      match bookFind b.asks entry.price with
      | none => b
      | some level =>
        match removeFirstById level orderId with
        | (level', some order) =>
          OnOrderCancelled
            { b with asks := bookSet b.asks entry.price level', orders := orders' } order
        | (_, none) => b
    | Side.Buy =>
      match bookFind b.bids entry.price with
      | none => b
      | some level =>
        match removeFirstById level orderId with
        | (level', some order) =>
          OnOrderCancelled
            { b with bids := bookSet b.bids entry.price level', orders := orders' } order
        | (_, none) => b

/-- One cross of the head orders, lines 276-306 of `Orderbook.cpp`: the traded
quantity is `min(bid remaining, ask remaining)`, both heads are filled by it,
and the emitted `Trade` records each resting order's own id and price with
that quantity.  (The source pushes the `Trade` after possibly releasing a
fully filled head back to the pool; `Fill` does not touch id or price, so the
values read are the same either way.) -/
def crossOnce (bid ask : Order) : Nat × Order × Order × Trade :=
  let quantity := min bid.remainingQuantity ask.remainingQuantity
  let bid' := bid.Fill quantity
  let ask' := ask.Fill quantity
  (quantity, bid', ask',
    { bidTrade := { orderId := bid'.orderId, price := bid'.price, quantity := quantity },
      askTrade := { orderId := ask'.orderId, price := ask'.price, quantity := quantity } })

/-- The inner `while (!bids.empty() && !asks.empty())` loop of
`Orderbook::MatchOrders`, lines 274-310: cross the two head orders, pop a head
when it is fully filled (erasing it from the id index and releasing it to the
pool), record the trade, and update the per-price aggregates via
`OnOrderMatched`.  Every cross pops at least one head (`crossOnce_pops`), so
the number of iterations is bounded by `|bl| + |al|`; the first argument is
that bound (always passed as `bl.length + al.length` by `matchLoop`, which
makes the zero-fuel arm unreachable) and the recursion is structural on it. -/
def innerLoop : Nat → List Order → List Order → Orderbook → List Trade →
    List Order × List Order × Orderbook × List Trade
  | 0, bl, al, b, acc => (bl, al, b, acc)
  | fuel + 1, bl, al, b, acc =>
    match bl, al with
    | [], _ => (bl, al, b, acc)
    | _ :: _, [] => (bl, al, b, acc)
    | bid :: blRest, ask :: alRest =>
      let r := crossOnce bid ask
      let quantity := r.1
      let bid' := r.2.1
      let ask' := r.2.2.1
      let trade := r.2.2.2
      let orders1 := if bid'.IsFilled then ordersErase b.orders bid'.orderId else b.orders
      let pool1 := if bid'.IsFilled then ObjectPool.Release b.pool bid' else b.pool
      let orders2 := if ask'.IsFilled then ordersErase orders1 ask'.orderId else orders1
      let pool2 := if ask'.IsFilled then ObjectPool.Release pool1 ask' else pool1
      let data1 := OnOrderMatched b.data bid'.price quantity bid'.IsFilled
      let data2 := OnOrderMatched data1 ask'.price quantity ask'.IsFilled
      let bl' := if bid'.IsFilled then blRest else bid' :: blRest
      let al' := if ask'.IsFilled then alRest else ask' :: alRest
      innerLoop fuel bl' al' { b with orders := orders2, data := data2, pool := pool2 }
        (acc ++ [trade])

/-- The outer `while (true)` loop of `Orderbook::MatchOrders`, lines 263-329:
stop with the accumulated trades when a side is empty or the spread is open
(`bidPrice < askPrice`); otherwise run the inner loop on the two top levels
and write the (possibly emptied) FIFOs back.  The `bids_.erase(bidPrice)` /
`asks_.erase(askPrice)` cleanup of emptied levels (lines 312-328) is commented
out in the source, so the written-back FIFOs stay in their maps even when
empty.  The C++ loop has no bound, so the embedding takes explicit fuel and
answers `none` when the fuel is exhausted before the loop exits; the theorems
below quantify over all fuels. -/
def matchLoop : Nat → Orderbook → List Trade → Option (List Trade × Orderbook)
  | 0, _, _ => none
  | fuel + 1, b, acc =>
    match b.bids, b.asks with
    | [], _ => some (acc, b)
    | _ :: _, [] => some (acc, b)
    | (bidPrice, bidLevel) :: bidRest, (askPrice, askLevel) :: askRest =>
      if bidPrice < askPrice then some (acc, b)
      else
        match innerLoop (bidLevel.length + askLevel.length) bidLevel askLevel b acc with
        | (bl', al', b', acc') =>
          matchLoop fuel
            { b' with bids := (bidPrice, bl') :: bidRest, asks := (askPrice, al') :: askRest }
            acc'

/-- The `FillAndKill` residue step after the match loop, lines 331-345 of
`Orderbook.cpp`: if the front order of the top level on either side is a
`FillAndKill` order, cancel it.  `bids.front()` on an empty FIFO is undefined
behaviour in C++; the wildcard arms treat that source-unreachable shape as a
no-op. -/
def fakResidue (b : Orderbook) : Orderbook :=
  let b1 :=
    match b.bids with
    | (_, order :: _) :: _ =>
      if order.orderType == OrderType.FillAndKill then CancelOrderInternal b order.orderId
      else b
    | _ => b
  match b1.asks with
  | (_, order :: _) :: _ =>
    if order.orderType == OrderType.FillAndKill then CancelOrderInternal b1 order.orderId
    else b1
  | _ => b1

/-- `Orderbook::MatchOrders`, lines 258-348: run the match loop, then the
`FillAndKill` residue step, and return the accumulated trades. -/
def MatchOrders (fuel : Nat) (b : Orderbook) : Option (List Trade × Orderbook) :=
  match matchLoop fuel b [] with
  | none => none
  | some (trades, b') => some (trades, fakResidue b')

/-- `asks_.rbegin()`: the worst (highest) resting ask price. -/
def worstAskPrice (b : Orderbook) : Option Nat :=
  b.asks.getLast?.map Prod.fst

/-- `bids_.rbegin()`: the worst (lowest) resting bid price. -/
def worstBidPrice (b : Orderbook) : Option Nat :=
  b.bids.getLast?.map Prod.fst

/-- `Orderbook::HandleAddOrder`, lines 454-511 of `Orderbook.cpp`: drop silent
duplicates; bind a `Market` order to the worst opposite price (drop it when
the opposite side is empty); drop a `FillAndKill` order that cannot match and
a `FillOrKill` order that cannot fully fill; otherwise append the order at the
tail of its price level, index it, update the aggregates, and run
`MatchOrders`. -/
def HandleAddOrder (fuel : Nat) (b : Orderbook) (order : Order) :
    Option (List Trade × Orderbook) :=
  if ordersContains b.orders order.orderId then some ([], b)
  else
    let adjusted : Option Order :=
      if order.orderType == OrderType.Market then
        match order.side with
        | Side.Buy => (worstAskPrice b).map order.ToGoodTillCancel
        | Side.Sell => (worstBidPrice b).map order.ToGoodTillCancel
      else some order
    match adjusted with
    | none => some ([], b)
    | some o =>
      if o.orderType == OrderType.FillAndKill && !CanMatch b o.side o.price then
        some ([], b)
      else if o.orderType == OrderType.FillOrKill &&
          !CanFullyFill b o.side o.price o.initialQuantity then
        some ([], b)
      else
        let b1 :=
          match o.side with
          | Side.Buy => { b with bids := mapInsertOrder (fun p q => p > q) b.bids o.price o }
          | Side.Sell => { b with asks := mapInsertOrder (fun p q => p < q) b.asks o.price o }
        let b2 := { b1 with
          orders := { orderId := o.orderId, orderType := o.orderType,
                      side := o.side, price := o.price } :: b1.orders }
        MatchOrders fuel (OnOrderAdded b2 o)

/-- `Orderbook::HandleCancelOrder`, lines 513-516. -/
def HandleCancelOrder (b : Orderbook) (orderId : Nat) : Orderbook :=
  CancelOrderInternal b orderId

/-- `Orderbook::AcquireOrder`, lines 562-567: take a slot from the pool and
`Reset` every field. -/
def AcquireOrder (b : Orderbook) (orderType : OrderType) (orderId : Nat)
    (side : Side) (price : Nat) (quantity : Nat) : Order × Orderbook :=
  let r := ObjectPool.Acquire b.pool
  (r.1.Reset orderType orderId side price quantity, { b with pool := r.2 })

/-- `Orderbook::HandleModifyOrder`, lines 518-533: a missing id is a no-op;
otherwise cancel the resident order, acquire a fresh slot carrying the
original discipline with the modify's side/price/quantity, and re-add it. -/
def HandleModifyOrder (fuel : Nat) (b : Orderbook) (m : OrderModify) :
    Option (List Trade × Orderbook) :=
  match ordersFind b.orders m.orderId with
  | none => some ([], b)
  | some existing =>
    let b1 := CancelOrderInternal b m.orderId
    let r := AcquireOrder b1 existing.orderType m.orderId m.side m.price m.quantity
    HandleAddOrder fuel r.2 r.1

/-- A `Orderbook::Request` as published into the inbound ring: the `Type` tag
with its payload (`Orderbook.h`). -/
inductive Request where
  | add (order : Order)
  | cancel (orderId : Nat)
  | modify (m : OrderModify)
deriving DecidableEq, Repr

/-- The per-request body of `Orderbook::ProcessRequests`, lines 44-94 of
`Orderbook.cpp`: run an `Add` through the risk gate (rejections release the
slot back to the pool and skip processing), then dispatch on the request kind.
The second component collects the journal entries written while handling the
request: the journaling call (`journaler_.Log(req)`, line 67) is commented out
in the source — as is the `journaler_` member itself in `Orderbook.h` — so no
request ever writes one.  (The latency bookkeeping and the processed-orders
counter have no bearing on any claim and are not modelled.) -/
def processOneRequest (fuel : Nat) (b : Orderbook) (req : Request) :
    Option (Orderbook × List Request) :=
  match req with
  | Request.add order =>
    if RiskManager.CheckOrder {} order ≠ RiskManager.Result.Allowed then
      some ({ b with pool := ObjectPool.Release b.pool order }, [])
    else
      match HandleAddOrder fuel b order with
      | none => none
      | some (_, b') => some (b', [])
  | Request.cancel orderId => some (HandleCancelOrder b orderId, [])
  | Request.modify m =>
    match HandleModifyOrder fuel b m with
    | none => none
    | some (_, b') => some (b', [])

/-- The matcher thread's state for the shutdown analysis: the shutdown flag,
the inbound ring viewed as the list of its pending requests, and the engine
state. -/
structure MatcherState (S : Type) where
  shutdownFlag : Bool
  queue : List Request
  engine : S

/-- The `while (!shutdown_ || !requestQueue_.IsEmpty())` loop of
`Orderbook::ProcessRequests`, lines 37-103: as long as the flag is unset or
the ring is non-empty, pop a request and handle it (an empty poll merely
yields).  Per the claim's own assumption the per-request step is a total
function `step` (the source's dispatch does **not** always terminate — see the
C2 theorem — so totality is exactly the claim's bracketed hypothesis), and
after shutdown the producers push nothing more (spec §5), so the queue only
shrinks.  The C++ loop is unbounded, hence the explicit fuel. -/
def processLoop {S : Type} (step : Request → S → S) : Nat → MatcherState S → Option S
  | 0, _ => none
  | fuel + 1, m =>
    if !m.shutdownFlag || !m.queue.isEmpty then
      match m.queue with
      | [] => processLoop step fuel m
      | r :: rest =>
        processLoop step fuel
          { shutdownFlag := m.shutdownFlag, queue := rest, engine := step r m.engine }
    else
      some m.engine

/-! ## Concrete engine states used by the trace theorems -/

/-- The freshly constructed engine: both maps empty, no aggregates, no
resident orders.  The pool's free list is taken empty as well (its
pre-allocated slots are all interchangeable default-constructed records; an
empty free list only means acquisitions fall back to the degraded
allocation, which no trace below performs). -/
def emptyOrderbook : Orderbook :=
  { bids := [], asks := [], data := [], orders := [], pool := [] }

/-- A resting Sell: id 1, price 100, quantity 3 (scenario 3 of spec §8). -/
def restingSell1 : Order :=
  { orderType := OrderType.GoodTillCancel, orderId := 1, side := Side.Sell,
    price := 100, initialQuantity := 3, remainingQuantity := 3 }

/-- The book holding exactly `restingSell1`, as produced by
`HandleAddOrder` on the empty book (checked by the reachability conjunct
of the C4 statement). -/
def bookAsk100 : Orderbook :=
  { bids := [],
    asks := [(100, [restingSell1])],
    data := [(100, { quantity := 3, count := 1 })],
    orders := [{ orderId := 1, orderType := OrderType.GoodTillCancel,
                 side := Side.Sell, price := 100 }],
    pool := [] }

/-- The incoming FillAndKill Buy: id 2, price 100, quantity 10 (scenario 3 of
spec §8). -/
def fakBuy2 : Order :=
  { orderType := OrderType.FillAndKill, orderId := 2, side := Side.Buy,
    price := 100, initialQuantity := 10, remainingQuantity := 10 }

/-- A resting Buy: id 1, price 100, quantity 5. -/
def buyGtc1 : Order :=
  { orderType := OrderType.GoodTillCancel, orderId := 1, side := Side.Buy,
    price := 100, initialQuantity := 5, remainingQuantity := 5 }

/-- A crossing Sell: id 2, price 100, quantity 5. -/
def sellGtc2 : Order :=
  { orderType := OrderType.GoodTillCancel, orderId := 2, side := Side.Sell,
    price := 100, initialQuantity := 5, remainingQuantity := 5 }

/-- The book holding exactly `buyGtc1`, as produced by `HandleAddOrder` on the
empty book (checked by the reachability conjuncts of the C2/C3 theorems). -/
def bookBid100 : Orderbook :=
  { bids := [(100, [buyGtc1])],
    asks := [],
    data := [(100, { quantity := 5, count := 1 })],
    orders := [{ orderId := 1, orderType := OrderType.GoodTillCancel,
                 side := Side.Buy, price := 100 }],
    pool := [] }

/-- The book state handed to `MatchOrders` after `sellGtc2` is inserted into
`bookBid100`: top bid 100 crosses top ask 100. -/
def crossedBook : Orderbook :=
  { bids := [(100, [buyGtc1])],
    asks := [(100, [sellGtc2])],
    data := [(100, { quantity := 10, count := 2 })],
    orders := [{ orderId := 2, orderType := OrderType.GoodTillCancel,
                 side := Side.Sell, price := 100 },
               { orderId := 1, orderType := OrderType.GoodTillCancel,
                 side := Side.Buy, price := 100 }],
    pool := [] }

/-- The state the outer match loop reaches after the single cross on
`crossedBook`: both orders fully filled and released, both price levels still
present with **empty** FIFOs (the level-erase calls are commented out), and
the top bid price 100 still ≥ the top ask price 100 — the loop body no longer
changes anything. -/
def stuckBook : Orderbook :=
  { bids := [(100, [])],
    asks := [(100, [])],
    data := [],
    orders := [],
    pool := [{ sellGtc2 with remainingQuantity := 0 },
             { buyGtc1 with remainingQuantity := 0 }] }

/-- The one trade the cross on `crossedBook` emits. -/
def c2trade : Trade :=
  { bidTrade := { orderId := 1, price := 100, quantity := 5 },
    askTrade := { orderId := 2, price := 100, quantity := 5 } }

/-- Modelled from the spec, §4.E: `can_match(Buy, px)` should hold exactly
when "there exists an ask whose price ≤ px" — a resting ask order at a price
at or below the limit. -/
def existsAskAtOrBelow (b : Orderbook) (px : Nat) : Bool :=
  b.asks.any (fun level => decide (level.1 ≤ px) && !level.2.isEmpty)

/-! ## General lemmas about the match-loop embedding -/

/-- Each cross fully fills at least one of the two head orders (the traded
quantity is the minimum of the two remainings). -/
theorem crossOnce_pops (bid ask : Order) :
    (crossOnce bid ask).2.1.IsFilled = true ∨ (crossOnce bid ask).2.2.1.IsFilled = true := by
  simp only [crossOnce, Order.Fill, Order.IsFilled]
  rcases Nat.le_total bid.remainingQuantity ask.remainingQuantity with h | h
  · left
    simp [Nat.min_eq_left h]
  · right
    simp [Nat.min_eq_right h]

/-- With an empty bid FIFO the inner loop is a no-op, whatever the fuel. -/
theorem innerLoop_nil_left (n : Nat) (al : List Order) (b : Orderbook) (acc : List Trade) :
    innerLoop n [] al b acc = ([], al, b, acc) := by
  cases n <;> rfl

/-- With an empty ask FIFO the inner loop is a no-op, whatever the fuel. -/
theorem innerLoop_nil_right (n : Nat) (bl : List Order) (b : Orderbook) (acc : List Trade) :
    innerLoop n bl [] b acc = (bl, [], b, acc) := by
  cases n with
  | zero => rfl
  | succ n => cases bl <;> rfl

/-- The iteration bound `|bl| + |al|` that `matchLoop` passes to `innerLoop`
always suffices: any two fuels at or above it give the same result, so the
fueled embedding computes exactly the C++ inner `while` loop (which pops at
least one head per iteration, `crossOnce_pops`). -/
theorem innerLoop_fuel_congr :
    ∀ (n m : Nat) (bl al : List Order) (b : Orderbook) (acc : List Trade),
      bl.length + al.length ≤ n → bl.length + al.length ≤ m →
      innerLoop n bl al b acc = innerLoop m bl al b acc := by
  intro n
  induction n with
  | zero =>
    intro m bl al b acc hn hm
    have hbl : bl = [] := by
      cases bl with
      | nil => rfl
      | cons x xs => simp at hn
    subst hbl
    rw [innerLoop_nil_left, innerLoop_nil_left]
  | succ n ih =>
    intro m bl al b acc hn hm
    cases bl with
    | nil => rw [innerLoop_nil_left, innerLoop_nil_left]
    | cons bid blRest =>
      cases al with
      | nil => rw [innerLoop_nil_right, innerLoop_nil_right]
      | cons ask alRest =>
        cases m with
        | zero => simp at hm
        | succ m' =>
          simp only [List.length_cons] at hn hm
          simp only [innerLoop]
          by_cases hb : (crossOnce bid ask).2.1.IsFilled = true
          · by_cases ha : (crossOnce bid ask).2.2.1.IsFilled = true
            · simp only [hb, ha, if_true]
              apply ih
              · simp only [List.length_cons] at *
                omega
              · omega
            · rw [Bool.not_eq_true] at ha
              simp only [hb, ha, if_true, Bool.false_eq_true, if_false]
              apply ih
              · simp only [List.length_cons]
                omega
              · simp only [List.length_cons]
                omega
          · by_cases ha : (crossOnce bid ask).2.2.1.IsFilled = true
            · rw [Bool.not_eq_true] at hb
              simp only [hb, ha, if_true, Bool.false_eq_true, if_false]
              apply ih
              · simp only [List.length_cons]
                omega
              · simp only [List.length_cons]
                omega
            · rcases crossOnce_pops bid ask with h | h
              · exact absurd h hb
              · exact absurd h ha

/-! ## Theorems for the claims -/

/-- C8: `RiskManager::CheckOrder` rejects with `RejectedMaxQty` exactly when
the initial quantity exceeds the configured maximum; otherwise a non-`Market`
order whose price is above `maxPrice` or below `minPrice` is rejected with
`RejectedPriceRange`; a `Market` order is never price-range-rejected; every
remaining case is `Allowed`. -/
theorem c8_riskGate_classification (config : RiskManager.Config) (order : Order) :
    (order.initialQuantity > config.maxOrderQuantity →
      RiskManager.CheckOrder config order = RiskManager.Result.RejectedMaxQty)
    ∧ (order.initialQuantity ≤ config.maxOrderQuantity →
        order.orderType ≠ OrderType.Market →
        (order.price > config.maxPrice ∨ order.price < config.minPrice) →
        RiskManager.CheckOrder config order = RiskManager.Result.RejectedPriceRange)
    ∧ (order.orderType = OrderType.Market →
        RiskManager.CheckOrder config order ≠ RiskManager.Result.RejectedPriceRange)
    ∧ (order.initialQuantity ≤ config.maxOrderQuantity →
        (order.orderType = OrderType.Market ∨
          (config.minPrice ≤ order.price ∧ order.price ≤ config.maxPrice)) →
        RiskManager.CheckOrder config order = RiskManager.Result.Allowed) := by
  unfold RiskManager.CheckOrder
  refine ⟨?_, ?_, ?_, ?_⟩
  · intro h
    simp [h]
  · intro h1 h2 h3
    split_ifs with ha hb
    · omega
    · rfl
    · exact absurd ⟨h2, h3⟩ hb
  · intro hm
    split_ifs with h1 h2
    · simp
    · exact absurd hm h2.1
    · simp
  · intro h1 h2
    split_ifs with ha hb
    · omega
    · rcases hb with ⟨hob, hrange⟩
      rcases h2 with hm | hin
      · exact absurd hm hob
      · omega
    · rfl

/-- Witness for C8: the theorem applied at the default configuration and
concrete orders exercising each arm. -/
theorem c8_riskGate_classification_witness :
    RiskManager.CheckOrder {}
        { orderType := OrderType.GoodTillCancel, orderId := 1, side := Side.Buy,
          price := 50, initialQuantity := 20000, remainingQuantity := 20000 }
      = RiskManager.Result.RejectedMaxQty
    ∧ RiskManager.CheckOrder {}
        { orderType := OrderType.GoodTillCancel, orderId := 2, side := Side.Buy,
          price := 0, initialQuantity := 5, remainingQuantity := 5 }
      = RiskManager.Result.RejectedPriceRange
    ∧ RiskManager.CheckOrder {}
        { orderType := OrderType.Market, orderId := 3, side := Side.Buy,
          price := 0, initialQuantity := 5, remainingQuantity := 5 }
      ≠ RiskManager.Result.RejectedPriceRange
    ∧ RiskManager.CheckOrder {}
        { orderType := OrderType.GoodTillCancel, orderId := 4, side := Side.Sell,
          price := 50, initialQuantity := 5, remainingQuantity := 5 }
      = RiskManager.Result.Allowed :=
  ⟨(c8_riskGate_classification {} _).1 (by decide),
   (c8_riskGate_classification {} _).2.1 (by decide) (by decide) (Or.inr (by decide)),
   (c8_riskGate_classification {} _).2.2.1 rfl,
   (c8_riskGate_classification {} _).2.2.2 (by decide) (Or.inr (by decide))⟩

/-- From a state with `head = 0` and room for `n` more pushes before the
wrap-around collision, `n` consecutive pushes all succeed and only advance
`tail` by `n`. -/
theorem pushChain_fresh {T : Type} (x : T) (C : Nat) :
    ∀ (n : Nat) (q : LockFreeQueue T), q.capacity = C → q.head = 0 → q.tail + n < C →
      LockFreeQueue.pushChainOk x n q = true ∧
      (LockFreeQueue.pushChain x n q).capacity = C ∧
      (LockFreeQueue.pushChain x n q).head = 0 ∧
      (LockFreeQueue.pushChain x n q).tail = q.tail + n := by
  intro n
  induction n with
  | zero =>
    intro q hc hh ht
    exact ⟨rfl, hc, hh, rfl⟩
  | succ n ih =>
    intro q hc hh ht
    have hmod : (q.tail + 1) % q.capacity = q.tail + 1 := by
      rw [hc]; exact Nat.mod_eq_of_lt (by omega)
    have hne : ((q.tail + 1) % q.capacity == q.head) = false := by
      rw [hmod, hh]; simp
    have hpush : LockFreeQueue.Push q x =
        (true, { q with
          buffer := (fun i => if i == q.tail then some x else q.buffer i),
          tail := (q.tail + 1) % q.capacity }) := by
      simp only [LockFreeQueue.Push, hne, Bool.false_eq_true, if_false]
    have hrec := ih { q with
        buffer := (fun i => if i == q.tail then some x else q.buffer i),
        tail := (q.tail + 1) % q.capacity }
      (by simpa using hc) (by simpa using hh) (by simp [hmod]; omega)
    refine ⟨?_, ?_, ?_, ?_⟩
    · simp only [LockFreeQueue.pushChainOk, hpush]
      simpa using hrec.1
    · simp only [LockFreeQueue.pushChain, hpush]
      exact hrec.2.1
    · simp only [LockFreeQueue.pushChain, hpush]
      exact hrec.2.2.1
    · simp only [LockFreeQueue.pushChain, hpush]
      rw [hrec.2.2.2]
      simp only [hmod]
      omega

/-- C9: a ring buffer of declared capacity `C` holds at most `C − 1` elements:
starting from the freshly constructed queue, `C − 1` consecutive pushes all
succeed, the `C`-th push returns `false`, and `Pop` succeeds exactly when the
queue is non-empty (its `Size` is positive). -/
theorem c9_ringBuffer_capacity (T : Type) (x : T) (C : Nat) (hC : 0 < C) :
    LockFreeQueue.pushChainOk x (C - 1) (LockFreeQueue.mk0 T C) = true
    ∧ (LockFreeQueue.Push (LockFreeQueue.pushChain x (C - 1) (LockFreeQueue.mk0 T C)) x).1 = false
    ∧ (∀ q : LockFreeQueue T, q.head < q.capacity → q.tail < q.capacity →
        ((LockFreeQueue.Pop q).1 = true ↔ 0 < LockFreeQueue.Size q)) := by
  obtain ⟨hok, hcap, hhead, htail⟩ :=
    pushChain_fresh x C (C - 1) (LockFreeQueue.mk0 T C) rfl rfl
      (by simp [LockFreeQueue.mk0]; omega)
  refine ⟨hok, ?_, ?_⟩
  · have h0 : (LockFreeQueue.mk0 T C).tail = 0 := rfl
    have hwrap : ((LockFreeQueue.pushChain x (C - 1) (LockFreeQueue.mk0 T C)).tail + 1) %
        (LockFreeQueue.pushChain x (C - 1) (LockFreeQueue.mk0 T C)).capacity = 0 := by
      rw [htail, hcap, h0]
      have h1 : 0 + (C - 1) + 1 = C := by omega
      rw [h1, Nat.mod_self]
    simp only [LockFreeQueue.Push, hwrap, hhead, beq_self_eq_true, if_true]
  · intro q hh ht
    unfold LockFreeQueue.Pop LockFreeQueue.Size
    by_cases he : q.head = q.tail
    · simp [he]
    · have hne : (q.head == q.tail) = false := by simp [he]
      simp only [hne, Bool.false_eq_true, if_false, true_iff]
      split_ifs with hge
      · omega
      · omega

/-- Witness for C9 at capacity 4: three pushes succeed, the fourth fails, and
`Pop` on the fresh queue succeeds exactly when the queue is non-empty. -/
theorem c9_ringBuffer_capacity_witness :
    LockFreeQueue.pushChainOk 7 3 (LockFreeQueue.mk0 Nat 4) = true
    ∧ (LockFreeQueue.Push (LockFreeQueue.pushChain 7 3 (LockFreeQueue.mk0 Nat 4)) 7).1 = false
    ∧ ((LockFreeQueue.Pop (LockFreeQueue.mk0 Nat 4)).1 = true ↔
        0 < LockFreeQueue.Size (LockFreeQueue.mk0 Nat 4)) :=
  ⟨(c9_ringBuffer_capacity Nat 7 4 (by decide)).1,
   (c9_ringBuffer_capacity Nat 7 4 (by decide)).2.1,
   (c9_ringBuffer_capacity Nat 7 4 (by decide)).2.2 (LockFreeQueue.mk0 Nat 4)
     (by decide) (by decide)⟩

/-- C10: once the shutdown flag is set (and producers push nothing more), the
processing loop `while (!shutdown_ || !requestQueue_.IsEmpty())` pops and
handles every request still in the inbound ring, in order, and exits exactly
when the ring is empty: with any total per-request step, fuel `|queue| + 1`
suffices and the final engine state is the left fold of the step over the
pending requests — no request is discarded. -/
theorem c10_drainsQueueBeforeExit (S : Type) (step : Request → S → S)
    (queue : List Request) (engine : S) :
    processLoop step (queue.length + 1)
        { shutdownFlag := true, queue := queue, engine := engine }
      = some (queue.foldl (fun s r => step r s) engine) := by
  induction queue generalizing engine with
  | nil => rfl
  | cons r rest ih =>
    show processLoop step (rest.length + 1 + 1) _ = _
    rw [processLoop]
    simp only [List.isEmpty_cons, Bool.not_true, Bool.not_false, Bool.false_or, if_true]
    exact ih (step r engine)

/-- C7: one iteration of the match-loop cross (`crossOnce`, the body used by
`innerLoop`): the traded quantity is `min(bid remaining, ask remaining)`,
exactly that quantity is subtracted from each side's remaining quantity, and
the emitted `Trade` records the bid order's own id and price and the ask
order's own id and price, with the traded quantity on both sides. -/
theorem c7_crossConservation (bid ask : Order) :
    (crossOnce bid ask).1 = min bid.remainingQuantity ask.remainingQuantity
    ∧ (crossOnce bid ask).2.1.remainingQuantity + (crossOnce bid ask).1
        = bid.remainingQuantity
    ∧ (crossOnce bid ask).2.2.1.remainingQuantity + (crossOnce bid ask).1
        = ask.remainingQuantity
    ∧ (crossOnce bid ask).2.2.2 =
        { bidTrade := { orderId := bid.orderId, price := bid.price,
                        quantity := min bid.remainingQuantity ask.remainingQuantity },
          askTrade := { orderId := ask.orderId, price := ask.price,
                        quantity := min bid.remainingQuantity ask.remainingQuantity } } := by
  refine ⟨rfl, ?_, ?_, rfl⟩
  · simp only [crossOnce, Order.Fill]
    exact Nat.sub_add_cancel (Nat.min_le_left _ _)
  · simp only [crossOnce, Order.Fill]
    exact Nat.sub_add_cancel (Nat.min_le_right _ _)

/-- C6 counterexample: `Acquire` on an empty pool allocates a new slot
(degraded mode) but records nothing — the code's exhaustion count stays 0
where the claim's degraded mode requires it to become 1 (and no `PoolExhausted`
failure exists: `Acquire` is total). -/
theorem c6_acquireMetric_counterexample :
    (ObjectPool.AcquireLifted { free := [], exhaustions := 0 }).2.exhaustions = 0
    ∧ (ObjectPool.AcquireLifted { free := [], exhaustions := 0 }).1 = defaultOrder
    ∧ (ObjectPool.acquireSpecDegraded { free := [], exhaustions := 0 }).2.exhaustions = 1 :=
  ⟨rfl, rfl, rfl⟩

/-- C6 amended: `Acquire` on a non-empty pool returns a slot from the free
list; on an empty pool it always allocates a new slot on demand (degraded
mode); no exhaustions counter is incremented — the pool maintains no
exhaustion metric at all — and no strict `PoolExhausted` failure mode
exists. -/
theorem c6_acquireDegradedNoMetric (s : ObjectPool.StateWithMetric) :
    (ObjectPool.AcquireLifted s).2.exhaustions = s.exhaustions
    ∧ (s.free = [] →
        ObjectPool.AcquireLifted s = (defaultOrder, { s with free := [] }))
    ∧ (∀ o rest, s.free = o :: rest →
        ObjectPool.AcquireLifted s = (o, { s with free := rest })) := by
  cases h : s.free with
  | nil =>
    refine ⟨?_, ?_, ?_⟩
    · simp [ObjectPool.AcquireLifted, ObjectPool.Acquire, h]
    · intro _
      simp [ObjectPool.AcquireLifted, ObjectPool.Acquire, h]
    · intro o rest hcons
      simp at hcons
  | cons o rest =>
    refine ⟨?_, ?_, ?_⟩
    · simp [ObjectPool.AcquireLifted, ObjectPool.Acquire, h]
    · intro hnil
      simp at hnil
    · intro o' rest' hcons
      injection hcons with h1 h2
      subst h1
      subst h2
      simp [ObjectPool.AcquireLifted, ObjectPool.Acquire, h]

/-- Witness for the amended C6: both shapes of the free list, at concrete pool
states. -/
theorem c6_acquireDegradedNoMetric_witness :
    (ObjectPool.AcquireLifted { free := [], exhaustions := 7 }).2.exhaustions = 7
    ∧ ObjectPool.AcquireLifted { free := [], exhaustions := 7 }
        = (defaultOrder, { free := [], exhaustions := 7 })
    ∧ ObjectPool.AcquireLifted { free := [defaultOrder], exhaustions := 7 }
        = (defaultOrder, { free := [], exhaustions := 7 }) :=
  ⟨(c6_acquireDegradedNoMetric _).1,
   (c6_acquireDegradedNoMetric _).2.1 rfl,
   (c6_acquireDegradedNoMetric _).2.2 defaultOrder [] rfl⟩

/-- C1 failing input: on the book holding one resting Sell at price 100
(reached from the empty book — see the C4 theorem), `CanMatch(Buy, 100)`
returns `false` although a resting ask at price ≤ 100 exists: the function is
stubbed to `false` in the source. -/
theorem c1_canMatchStub_failingInput :
    CanMatch bookAsk100 Side.Buy 100 = false
    ∧ existsAskAtOrBelow bookAsk100 100 = true :=
  ⟨rfl, rfl⟩

/-- C4: on the book with the single resting Sell id 1, price 100, quantity 3,
an incoming FillAndKill Buy id 2, price 100, quantity 10 is dropped without a
trade: `CanMatch` (stubbed to `false`) rejects it, `HandleAddOrder` returns no
trades, the book — including the pool free list — is completely unchanged, so
id 2's slot is never released to the pool.  The first conjunct shows the
resting book is reached from the empty book by `HandleAddOrder`. -/
theorem c4_fakPartialFill_failingInput :
    HandleAddOrder 1 emptyOrderbook restingSell1 = some ([], bookAsk100)
    ∧ (∀ fuel, HandleAddOrder fuel bookAsk100 fakBuy2 = some ([], bookAsk100))
    ∧ ordersContains bookAsk100.orders 2 = false
    ∧ bookAsk100.pool = [] :=
  ⟨rfl, fun _ => rfl, rfl, rfl⟩

/-- C5: a risk-admitted Add request is dispatched (here it places the resting
Sell on the book) with **zero** journal entries written: the journaling call
`journaler_.Log(req)` and the `journaler_` member are both commented out, so
no journal — let alone gapless sequence numbers — exists. -/
theorem c5_admittedRequestNotJournaled :
    processOneRequest 1 emptyOrderbook (Request.add restingSell1)
      = some (bookAsk100, []) :=
  rfl

/-- On `stuckBook` every iteration of the outer match loop re-examines the two
stale empty levels at 100/100 and recurses on the identical state, so the loop
never exits, whatever the fuel. -/
theorem matchLoop_stuck : ∀ (fuel : Nat) (acc : List Trade),
    matchLoop fuel stuckBook acc = none := by
  intro fuel
  induction fuel with
  | zero => intro acc; rfl
  | succ n ih =>
    intro acc
    have hstep : matchLoop (n + 1) stuckBook acc = matchLoop n stuckBook acc := rfl
    rw [hstep]
    exact ih acc

/-- C2: the match loop run after an Add does **not** terminate on a reachable
state.  `bookBid100` is reached from the empty book (first conjunct); adding
the crossing Sell executes one cross and then spins forever on the stale empty
levels, because the commented-out cleanup never deletes them and the spread
never reopens: `HandleAddOrder` answers `none` for every fuel. -/
theorem c2_matchLoopDiverges_failingInput :
    HandleAddOrder 1 emptyOrderbook buyGtc1 = some ([], bookBid100)
    ∧ (∀ fuel, HandleAddOrder fuel bookBid100 sellGtc2 = none) := by
  refine ⟨rfl, fun fuel => ?_⟩
  have h1 : HandleAddOrder fuel bookBid100 sellGtc2 = MatchOrders fuel crossedBook := rfl
  have h2 : ∀ acc, matchLoop fuel crossedBook acc = none := by
    cases fuel with
    | zero => intro acc; rfl
    | succ n =>
      intro acc
      have hstep : matchLoop (n + 1) crossedBook acc
          = matchLoop n stuckBook (acc ++ [c2trade]) := rfl
      rw [hstep]
      exact matchLoop_stuck n (acc ++ [c2trade])
  rw [h1]
  unfold MatchOrders
  rw [h2 []]

/-- C3: the level aggregates go out of sync with the bid map.  After adding
`buyGtc1` to the empty book (first conjunct) and then cancelling it, price 100
is still present in the bid map — with an empty FIFO — while its `LevelData`
entry (the `count`/`total_qty` aggregate) has been erased in the same step: a
level present in the map with no `count ≥ 1`, violating the invariant, because
the `bids_.erase(price)` cleanup is commented out. -/
theorem c3_emptyLevelLeftInMap_failingInput :
    HandleAddOrder 1 emptyOrderbook buyGtc1 = some ([], bookBid100)
    ∧ (CancelOrderInternal bookBid100 1).bids = [(100, [])]
    ∧ bookFind (CancelOrderInternal bookBid100 1).bids 100 = some []
    ∧ dataFind (CancelOrderInternal bookBid100 1).data 100 = none :=
  ⟨rfl, rfl, rfl, rfl⟩

end HFT
